import Mathlib

/-
Shallow embedding of src/src/controllers/users.js (a Koa controller over a
mongoose user store) and proofs of the specified properties.

The store is modelled as the list of persisted user documents; each handler
is a function from the store (plus its request parameters) to a result and,
for mutating handlers, the written-back store.  The HTTP error statuses the
controller throws are mapped to the spec's error taxonomy:
  412 "用户名或密码错误" -> invalidCredentials, 409 -> conflict,
  412 "无该用户"/"用户不存在" -> notFound, 403 -> forbidden.
A handler that would throw an uncaught TypeError (dereferencing a null
document) is modelled as returning Option.none.
-/

deriving instance DecidableEq for Except

namespace ZhihuApi

/-- Error taxonomy of the controller, one constructor per thrown status. -/
inductive Err
  | invalidCredentials
  | conflict
  | notFound
  | forbidden
  deriving DecidableEq

/-- Modelled from the spec: the User document (spec section 3).  The mongoose
schema file (src/models/users.js) is not under src/, so the record carries the
identity, credential and relational-edge fields that the controller in
src/src/controllers/users.js reads and writes. -/
structure UserDoc where
  id : String
  name : String
  password : String
  following : List String
  followingTopics : List String
  deriving DecidableEq

/-- The persisted state behind the mongoose User model: the list of stored
user documents. -/
structure Store where
  users : List UserDoc
  deriving DecidableEq

/-- User.findById: first stored document carrying the given id. -/
def findUserById (s : Store) (id : String) : Option UserDoc :=
  s.users.find? (fun u => decide (u.id = id))

/-- Persisting a modified document (mongoose doc.save()): every stored
document with the same id is replaced by the new version. -/
def saveUser (s : Store) (u : UserDoc) : Store :=
  { s with users := s.users.map (fun x => if x.id = u.id then u else x) }

/-- One relational edge field of a user document, as a getter/setter pair;
follow/unfollow and followingTopic/unfollowingTopic in users.js are the same
code applied to the two fields. -/
structure EdgeLens where
  get : UserDoc → List String
  set : UserDoc → List String → UserDoc

/-- The following field (edge set of followed user ids). -/
def followingLens : EdgeLens :=
  ⟨fun u => u.following, fun u l => { u with following := l }⟩

/-- The followingTopics field (edge set of followed topic ids). -/
def followingTopicsLens : EdgeLens :=
  ⟨fun u => u.followingTopics, fun u l => { u with followingTopics := l }⟩

/-- Shape of follow and followingTopic (users.js): load the acting user by
the session id, and only when the target id is not already in the edge list,
push it at the end and save.  A missing acting user makes the JS code
dereference null (me.following) and crash: modelled as none. -/
def pushEdge (L : EdgeLens) (s : Store) (mid tid : String) : Option (Store × Nat) :=
  match findUserById s mid with
  | none => none
  | some me =>
    if tid ∈ L.get me then some (s, 204)
    else some (saveUser s (L.set me (L.get me ++ [tid])), 204)

/-- Shape of unfollow and unfollowingTopic (users.js): load the acting user,
and when indexOf finds the target id, splice out that first occurrence and
save.  A missing acting user crashes: modelled as none. -/
def spliceEdge (L : EdgeLens) (s : Store) (mid tid : String) : Option (Store × Nat) :=
  match findUserById s mid with
  | none => none
  | some me =>
    if tid ∈ L.get me then some (saveUser s (L.set me ((L.get me).erase tid)), 204)
    else some (s, 204)

/-- users.js follow. -/
def follow : Store → String → String → Option (Store × Nat) :=
  pushEdge followingLens

/-- users.js unfollow. -/
def unfollow : Store → String → String → Option (Store × Nat) :=
  spliceEdge followingLens

/-- users.js followingTopic. -/
def followingTopic : Store → String → String → Option (Store × Nat) :=
  pushEdge followingTopicsLens

/-- users.js unfollowingTopic. -/
def unfollowingTopic : Store → String → String → Option (Store × Nat) :=
  spliceEdge followingTopicsLens

/-- The two edge kinds of the relationship graph. -/
inductive EdgeKind
  | users
  | topics
  deriving DecidableEq

/-- The edge field operated on by each kind. -/
def kindLens : EdgeKind → EdgeLens
  | .users => followingLens
  | .topics => followingTopicsLens

/-- The add operation of each edge kind, dispatching to the users.js handler. -/
def addEdge : EdgeKind → Store → String → String → Option (Store × Nat)
  | .users => follow
  | .topics => followingTopic

/-- The remove operation of each edge kind, dispatching to the users.js handler. -/
def removeEdge : EdgeKind → Store → String → String → Option (Store × Nat)
  | .users => unfollow
  | .topics => unfollowingTopic

/-- A user document's edge set of each kind. -/
def edgeSet (u : UserDoc) : EdgeKind → List String
  | .users => u.following
  | .topics => u.followingTopics

theorem addEdge_eq (k : EdgeKind) : addEdge k = pushEdge (kindLens k) := by
  cases k <;> rfl

theorem removeEdge_eq (k : EdgeKind) : removeEdge k = spliceEdge (kindLens k) := by
  cases k <;> rfl

theorem edgeSet_eq (u : UserDoc) (k : EdgeKind) : edgeSet u k = (kindLens k).get u := by
  cases k <;> rfl

theorem kindLens_get_set (k : EdgeKind) (u : UserDoc) (l : List String) :
    (kindLens k).get ((kindLens k).set u l) = l := by
  cases k <;> rfl

theorem kindLens_set_id (k : EdgeKind) (u : UserDoc) (l : List String) :
    ((kindLens k).set u l).id = u.id := by
  cases k <;> rfl

theorem findUserById_eq_none (s : Store) (mid : String)
    (h : ∀ u ∈ s.users, u.id ≠ mid) : findUserById s mid = none := by
  simp only [findUserById, List.find?_eq_none]
  intro x hx
  simp [h x hx]

theorem findUserById_id (s : Store) (mid : String) (me : UserDoc)
    (h : findUserById s mid = some me) : me.id = mid := by
  simp only [findUserById] at h
  simpa using List.find?_some h

theorem find?_map_replace (l : List UserDoc) (u me : UserDoc) (mid : String)
    (hfind : l.find? (fun x => decide (x.id = mid)) = some me) (hu : u.id = mid) :
    (l.map (fun x => if x.id = u.id then u else x)).find? (fun x => decide (x.id = mid))
      = some u := by
  induction l with
  | nil => simp at hfind
  | cons a t ih =>
    simp only [List.map_cons]
    by_cases ha : a.id = mid
    · have h1 : (if a.id = u.id then u else a) = u := if_pos (by rw [ha, hu])
      rw [h1]
      exact List.find?_cons_of_pos _ (by simp [hu])
    · have h1 : (if a.id = u.id then u else a) = a := if_neg (fun h => ha (by rw [h, hu]))
      rw [h1]
      rw [List.find?_cons_of_neg _ (by simp [ha])]
      rw [List.find?_cons_of_neg _ (by simp [ha])] at hfind
      exact ih hfind

theorem findUserById_saveUser (s : Store) (u me : UserDoc) (mid : String)
    (hfind : findUserById s mid = some me) (hu : u.id = mid) :
    findUserById (saveUser s u) mid = some u :=
  find?_map_replace s.users u me mid hfind hu

theorem pushEdge_mem (L : EdgeLens) (s : Store) (mid tid : String) (me : UserDoc)
    (hfind : findUserById s mid = some me) (htid : tid ∈ L.get me) :
    pushEdge L s mid tid = some (s, 204) := by
  simp [pushEdge, hfind, htid]

theorem pushEdge_not_mem (L : EdgeLens) (s : Store) (mid tid : String) (me : UserDoc)
    (hfind : findUserById s mid = some me) (htid : tid ∉ L.get me) :
    pushEdge L s mid tid = some (saveUser s (L.set me (L.get me ++ [tid])), 204) := by
  simp [pushEdge, hfind, htid]

theorem spliceEdge_mem (L : EdgeLens) (s : Store) (mid tid : String) (me : UserDoc)
    (hfind : findUserById s mid = some me) (htid : tid ∈ L.get me) :
    spliceEdge L s mid tid = some (saveUser s (L.set me ((L.get me).erase tid)), 204) := by
  simp [spliceEdge, hfind, htid]

theorem spliceEdge_not_mem (L : EdgeLens) (s : Store) (mid tid : String) (me : UserDoc)
    (hfind : findUserById s mid = some me) (htid : tid ∉ L.get me) :
    spliceEdge L s mid tid = some (s, 204) := by
  simp [spliceEdge, hfind, htid]

/-- Claim C1: for every owner, target id and edge kind, adding the same edge
twice leaves the owner's edge state identical to a single add and both calls
report success (204); removing twice likewise equals a single remove with
both calls succeeding.  Hypotheses: the acting owner exists in the store and
its edge set has no duplicates (the invariant the add operation maintains). -/
theorem edge_ops_idempotent (s : Store) (mid tid : String) (k : EdgeKind) (me : UserDoc)
    (hfind : findUserById s mid = some me) (hnd : (edgeSet me k).Nodup) :
    (∃ s₁, addEdge k s mid tid = some (s₁, 204) ∧ addEdge k s₁ mid tid = some (s₁, 204)) ∧
    (∃ s₂, removeEdge k s mid tid = some (s₂, 204) ∧
      removeEdge k s₂ mid tid = some (s₂, 204)) := by
  have hme : me.id = mid := findUserById_id s mid me hfind
  rw [addEdge_eq, removeEdge_eq]
  rw [edgeSet_eq] at hnd
  constructor
  · by_cases htid : tid ∈ (kindLens k).get me
    · exact ⟨s, pushEdge_mem _ s mid tid me hfind htid,
        pushEdge_mem _ s mid tid me hfind htid⟩
    · refine ⟨saveUser s ((kindLens k).set me ((kindLens k).get me ++ [tid])),
        pushEdge_not_mem _ s mid tid me hfind htid, ?_⟩
      have hfind' : findUserById
          (saveUser s ((kindLens k).set me ((kindLens k).get me ++ [tid]))) mid
          = some ((kindLens k).set me ((kindLens k).get me ++ [tid])) :=
        findUserById_saveUser s _ me mid hfind ((kindLens_set_id k me _).trans hme)
      apply pushEdge_mem _ _ mid tid _ hfind'
      rw [kindLens_get_set]
      exact List.mem_append_right _ (List.mem_singleton_self tid)
  · by_cases htid : tid ∈ (kindLens k).get me
    · refine ⟨saveUser s ((kindLens k).set me (((kindLens k).get me).erase tid)),
        spliceEdge_mem _ s mid tid me hfind htid, ?_⟩
      have hfind'' : findUserById
          (saveUser s ((kindLens k).set me (((kindLens k).get me).erase tid))) mid
          = some ((kindLens k).set me (((kindLens k).get me).erase tid)) :=
        findUserById_saveUser s _ me mid hfind ((kindLens_set_id k me _).trans hme)
      apply spliceEdge_not_mem _ _ mid tid _ hfind''
      rw [kindLens_get_set]
      exact hnd.not_mem_erase
    · exact ⟨s, spliceEdge_not_mem _ s mid tid me hfind htid,
        spliceEdge_not_mem _ s mid tid me hfind htid⟩

/-- A concrete one-owner store used to instantiate the edge theorems. -/
def uAlice : UserDoc :=
  { id := "1", name := "alice", password := "pw",
    following := ["2"], followingTopics := ["t1"] }

/-- A second concrete user. -/
def uBob : UserDoc :=
  { id := "2", name := "bob", password := "pw",
    following := [], followingTopics := [] }

/-- The concrete sample store holding alice and bob. -/
def sampleStore : Store := ⟨[uAlice, uBob]⟩

/-- Witness for claim C1 at the concrete sample store: alice follows and
unfollows user id 3 twice, idempotently. -/
theorem edge_ops_idempotent_witness :
    (findUserById sampleStore "1" = some uAlice ∧ (edgeSet uAlice EdgeKind.users).Nodup) ∧
    ((∃ s₁, addEdge EdgeKind.users sampleStore "1" "3" = some (s₁, 204) ∧
        addEdge EdgeKind.users s₁ "1" "3" = some (s₁, 204)) ∧
     (∃ s₂, removeEdge EdgeKind.users sampleStore "1" "3" = some (s₂, 204) ∧
        removeEdge EdgeKind.users s₂ "1" "3" = some (s₂, 204))) :=
  ⟨⟨by decide, by decide⟩,
    edge_ops_idempotent sampleStore "1" "3" EdgeKind.users uAlice (by decide) (by decide)⟩

/-- Claim C2: after add the target is a member of the owner's stored edge
set, after remove it is not, and both operations preserve the no-duplicates
(set) property of the edge lists.  Hypotheses: the owner exists and its edge
set is duplicate-free beforehand. -/
theorem edge_membership_postcondition (s : Store) (mid tid : String) (k : EdgeKind)
    (me : UserDoc) (hfind : findUserById s mid = some me)
    (hnd : (edgeSet me k).Nodup) :
    (∃ s₁ me₁, addEdge k s mid tid = some (s₁, 204) ∧ findUserById s₁ mid = some me₁ ∧
        tid ∈ edgeSet me₁ k ∧ (edgeSet me₁ k).Nodup) ∧
    (∃ s₂ me₂, removeEdge k s mid tid = some (s₂, 204) ∧ findUserById s₂ mid = some me₂ ∧
        tid ∉ edgeSet me₂ k ∧ (edgeSet me₂ k).Nodup) := by
  have hme : me.id = mid := findUserById_id s mid me hfind
  rw [addEdge_eq, removeEdge_eq]
  rw [edgeSet_eq] at hnd
  constructor
  · by_cases htid : tid ∈ (kindLens k).get me
    · exact ⟨s, me, pushEdge_mem _ s mid tid me hfind htid, hfind,
        by rw [edgeSet_eq]; exact htid, by rw [edgeSet_eq]; exact hnd⟩
    · refine ⟨saveUser s ((kindLens k).set me ((kindLens k).get me ++ [tid])),
        (kindLens k).set me ((kindLens k).get me ++ [tid]),
        pushEdge_not_mem _ s mid tid me hfind htid,
        findUserById_saveUser s _ me mid hfind ((kindLens_set_id k me _).trans hme),
        ?_, ?_⟩
      · rw [edgeSet_eq, kindLens_get_set]
        exact List.mem_append_right _ (List.mem_singleton_self tid)
      · rw [edgeSet_eq, kindLens_get_set, ← List.concat_eq_append]
        exact List.Nodup.concat htid hnd
  · by_cases htid : tid ∈ (kindLens k).get me
    · refine ⟨saveUser s ((kindLens k).set me (((kindLens k).get me).erase tid)),
        (kindLens k).set me (((kindLens k).get me).erase tid),
        spliceEdge_mem _ s mid tid me hfind htid,
        findUserById_saveUser s _ me mid hfind ((kindLens_set_id k me _).trans hme),
        ?_, ?_⟩
      · rw [edgeSet_eq, kindLens_get_set]
        exact hnd.not_mem_erase
      · rw [edgeSet_eq, kindLens_get_set]
        exact hnd.erase tid
    · exact ⟨s, me, spliceEdge_not_mem _ s mid tid me hfind htid, hfind,
        by rw [edgeSet_eq]; exact htid, by rw [edgeSet_eq]; exact hnd⟩

/-- Witness for claim C2 at the concrete sample store (topics kind). -/
theorem edge_membership_postcondition_witness :
    (findUserById sampleStore "1" = some uAlice ∧
      (edgeSet uAlice EdgeKind.topics).Nodup) ∧
    ((∃ s₁ me₁, addEdge EdgeKind.topics sampleStore "1" "t2" = some (s₁, 204) ∧
        findUserById s₁ "1" = some me₁ ∧ "t2" ∈ edgeSet me₁ EdgeKind.topics ∧
        (edgeSet me₁ EdgeKind.topics).Nodup) ∧
     (∃ s₂ me₂, removeEdge EdgeKind.topics sampleStore "1" "t2" = some (s₂, 204) ∧
        findUserById s₂ "1" = some me₂ ∧ "t2" ∉ edgeSet me₂ EdgeKind.topics ∧
        (edgeSet me₂ EdgeKind.topics).Nodup)) :=
  ⟨⟨by decide, by decide⟩,
    edge_membership_postcondition sampleStore "1" "t2" EdgeKind.topics uAlice
      (by decide) (by decide)⟩

/-- Claim C9: the four edge handlers dereference the loaded acting user with
no null check, so a session id absent from the store makes each of them crash
(modelled as none) instead of producing a defined error result. -/
theorem missing_actor_crashes (s : Store) (mid tid : String)
    (habs : ∀ u ∈ s.users, u.id ≠ mid) :
    follow s mid tid = none ∧ unfollow s mid tid = none ∧
    followingTopic s mid tid = none ∧ unfollowingTopic s mid tid = none := by
  have h : findUserById s mid = none := findUserById_eq_none s mid habs
  refine ⟨?_, ?_, ?_, ?_⟩ <;>
    simp [follow, unfollow, followingTopic, unfollowingTopic, pushEdge, spliceEdge, h]

/-- Witness for claim C9: the sample store has no user with id 9, and all
four handlers crash for that session id. -/
theorem missing_actor_crashes_witness :
    (∀ u ∈ sampleStore.users, u.id ≠ "9") ∧
    (follow sampleStore "9" "1" = none ∧ unfollow sampleStore "9" "1" = none ∧
     followingTopic sampleStore "9" "1" = none ∧
     unfollowingTopic sampleStore "9" "1" = none) :=
  ⟨by decide, missing_actor_crashes sampleStore "9" "1" (by decide)⟩

/-- A session token as issued by jwt.sign in users.js login: the signed
payload as key-value claims, plus the fixed expiry option. -/
structure Token where
  payload : List (String × String)
  expiresIn : String
  deriving DecidableEq

/-- users.js login: User.findOne on the request body (name and password),
412 "用户名或密码错误" when nothing matches, else a token signing the matched
document's name and _id with a one-day expiry. -/
def login (s : Store) (name password : String) : Except Err Token :=
  match s.users.find? (fun u => decide (u.name = name ∧ u.password = password)) with
  | none => .error .invalidCredentials
  | some u => .ok { payload := [("name", u.name), ("_id", u.id)], expiresIn := "1d" }

/-- JS String.prototype.toLowerCase over the characters of a string. -/
def lowerStr (s : String) : List Char :=
  s.toList.map Char.toLower

/-- Whether the needle occurs at the head of the haystack. -/
def leadMatch : List Char → List Char → Bool
  | [], _ => true
  | _ :: _, [] => false
  | a :: as, b :: bs => a = b && leadMatch as bs

/-- Whether the needle occurs anywhere in the haystack. -/
def hasSub (needle : List Char) : List Char → Bool
  | [] => leadMatch needle []
  | c :: t => leadMatch needle (c :: t) || hasSub needle t

/-- The RegExp(q, i) name filter of users.js getAllUsers: case-insensitive
substring containment of the query in the user's name. -/
def nameMatches (q : String) (name : String) : Bool :=
  hasSub (lowerStr q) (lowerStr name)

/-- users.js getAllUsers: per_page clamped to at least 1, page clamped to at
least 1 then shifted to 0-based, then skip (page * per_page records) and
limit (per_page records) applied to the name-filtered store. -/
def getAllUsers (s : Store) (q : String) (page perPage : Int) : List UserDoc :=
  (((s.users.filter (fun u => nameMatches q u.name)).drop
      (((max page 1 - 1) * max perPage 1).toNat)).take (max perPage 1).toNat)

/-- Claim C4: page and perPage are clamped to a minimum of 1, the internal
skip is (page - 1) * perPage over the clamped values (page = 1 gives skip 0,
perPage = 0 is clamped to limit 1, page = 0 behaves as page = 1), and at
most perPage records are returned starting at the skip offset. -/
theorem getAllUsers_pagination (s : Store) (q : String) (page perPage : Int) :
    (getAllUsers s q page perPage).length ≤ (max perPage 1).toNat ∧
    1 ≤ max perPage 1 ∧ 1 ≤ max page 1 ∧
    getAllUsers s q page perPage =
      ((s.users.filter (fun u => nameMatches q u.name)).drop
        (((max page 1 - 1) * max perPage 1).toNat)).take (max perPage 1).toNat ∧
    getAllUsers s q 1 perPage =
      (s.users.filter (fun u => nameMatches q u.name)).take (max perPage 1).toNat ∧
    (getAllUsers s q page 0).length ≤ 1 ∧
    getAllUsers s q 0 perPage = getAllUsers s q 1 perPage := by
  refine ⟨List.length_take_le _ _, le_max_right _ _, le_max_right _ _, rfl, ?_, ?_, ?_⟩
  · simp [getAllUsers]
  · calc (getAllUsers s q page 0).length ≤ (max (0 : Int) 1).toNat :=
          List.length_take_le _ _
      _ = 1 := by decide
  · simp [getAllUsers]

/-- JS String.prototype.split with separator ";" over the characters of the
fields query parameter (users.js getUserById). -/
def splitSemi : List Char → List (List Char)
  | [] => [[]]
  | c :: rest =>
    if c = ';' then [] :: splitSemi rest
    else
      match splitSemi rest with
      | [] => [[c]]
      | g :: gs => (c :: g) :: gs

/-- users.js getUserById: fields.split(";").filter(Boolean) — the requested
field names with empty entries discarded. -/
def splitFields (fields : String) : List String :=
  ((splitSemi fields.toList).map (fun cs => String.mk cs)).filter (fun v => v ≠ "")

/-- users.js getUserById selectFields: each requested name marked for reveal
with a "+" prefix and joined with spaces. -/
def selectFields (fields : String) : String :=
  " ".intercalate ((splitFields fields).map (fun v => "+" ++ v))

/-- users.js getUserById populate rewrite for one requested name: educations
expands to its school path, employments to its company and job paths (the
mapped string "employments.company employments.job" stands for these two
space-separated paths), and any other name to itself. -/
def expandField (v : String) : List String :=
  if v = "educations" then ["educations.school"]
  else if v = "employments" then ["employments.company", "employments.job"]
  else [v]

/-- The set of requested names marked for reveal. -/
def revealSet (fields : String) : Finset String :=
  (splitFields fields).toFinset

/-- The set of populate paths produced from the requested names. -/
def expansionPaths (fields : String) : Finset String :=
  (((splitFields fields).map expandField).flatten).toFinset

/-- Claim C3: the resolver splits on the semicolon delimiter and discards
empty entries; the reveal set of the empty string is empty;
revealSet "avatar_url;gender" is exactly those two names; educations expands
to educations.school, employments to employments.company and
employments.job, and every other requested name expands to itself. -/
theorem projection_resolution :
    revealSet "" = ∅ ∧
    revealSet "avatar_url;gender" = {"avatar_url", "gender"} ∧
    expansionPaths "educations" = {"educations.school"} ∧
    expansionPaths "employments" = {"employments.company", "employments.job"} ∧
    (∀ v : String, v ≠ "educations" → v ≠ "employments" → expandField v = [v]) ∧
    (∀ fields : String, "" ∉ revealSet fields) := by
  refine ⟨by decide, by decide, by decide, by decide, ?_, ?_⟩
  · intro v h1 h2
    simp [expandField, h1, h2]
  · intro fields
    simp [revealSet, splitFields, List.mem_toFinset, List.mem_filter]

/-- Witness for claim C3: the name foo is neither special case and expands
to itself; the two-entry field string a;;b never reveals the empty name. -/
theorem projection_resolution_witness :
    ("foo" ≠ "educations" ∧ "foo" ≠ "employments" ∧ expandField "foo" = ["foo"]) ∧
    "" ∉ revealSet "a;;b" :=
  ⟨⟨by decide, by decide,
      projection_resolution.2.2.2.2.1 "foo" (by decide) (by decide)⟩,
    projection_resolution.2.2.2.2.2 "a;;b"⟩

/-- users.js addUser: User.findOne on the requested name, 409 when a user
with that name already exists, else the new document is saved and appended
to the store.  The ObjectId the store generates for the new document is
modelled as the newId argument. -/
def addUser (s : Store) (newId name password : String) : Except Err UserDoc × Store :=
  let u : UserDoc :=
    { id := newId, name := name, password := password,
      following := [], followingTopics := [] }
  match s.users.find? (fun x => decide (x.name = name)) with
  | some _ => (.error .conflict, s)
  | none => (.ok u, { s with users := s.users ++ [u] })

/-- Modelled from the spec: the update body accepted by users.js
updateUserById (its verifyParams list), restricted to the fields the
embedded UserDoc carries; the schema file with the remaining profile
attributes is not under src/. -/
structure Patch where
  name : Option String
  password : Option String
  deriving DecidableEq

/-- Applying a partial update body to a stored document (mongoose
findByIdAndUpdate merge). -/
def applyPatch (u : UserDoc) (p : Patch) : UserDoc :=
  { u with name := p.name.getD u.name, password := p.password.getD u.password }

/-- users.js updateUserById: findByIdAndUpdate, which merges the body into
the matched document and yields the prior document, or null when the id
matches nothing; the handler reports success either way, with no existence
check. -/
def updateUserById (s : Store) (id : String) (p : Patch) :
    Except Err (Option UserDoc) × Store :=
  match findUserById s id with
  | none => (.ok none, s)
  | some u => (.ok (some u), saveUser s (applyPatch u p))

/-- users.js deleteUserById: findByIdAndRemove, 412 "无该用户" when the id
matches nothing, else the matched document is removed and 204 returned. -/
def deleteUserById (s : Store) (id : String) : Except Err Nat × Store :=
  match findUserById s id with
  | none => (.error .notFound, s)
  | some _ => (.ok 204, { s with users := s.users.eraseP (fun u => decide (u.id = id)) })

/-- users.js checkOwner: 403 when the path id differs from the session
user's _id, else control passes to the guarded handler. -/
def checkOwner (pathId actingId : String) : Except Err Unit :=
  if pathId ≠ actingId then .error .forbidden else .ok ()

/-- Modelled from the spec: the route wiring (not under src/) runs the
checkOwner guard before each self-scoped mutation (spec section 4.3
authorization gate; section 6 rows updateUser and deleteUser), and only on
guard success invokes the handler. -/
def guardedUpdateUserById (s : Store) (actingId pathId : String) (p : Patch) :
    Except Err (Option UserDoc) × Store :=
  match checkOwner pathId actingId with
  | .error e => (.error e, s)
  | .ok _ => updateUserById s pathId p

/-- Modelled from the spec: checkOwner wired before deleteUserById, as for
guardedUpdateUserById. -/
def guardedDeleteUserById (s : Store) (actingId pathId : String) :
    Except Err Nat × Store :=
  match checkOwner pathId actingId with
  | .error e => (.error e, s)
  | .ok _ => deleteUserById s pathId

/-- users.js checkUserExist: 412 "用户不存在" when no user has the given id. -/
def checkUserExist (s : Store) (id : String) : Except Err Unit :=
  match findUserById s id with
  | none => .error .notFound
  | some _ => .ok ()

/-- users.js getUserFollowers: User.find with the mongo query
following: id, i.e. every stored user whose following array contains id. -/
def getUserFollowers (s : Store) (targetId : String) : List UserDoc :=
  s.users.filter (fun u => decide (targetId ∈ u.following))

/-- Modelled from the spec: the route wiring (not under src/) runs the
checkUserExist gate before the followers listing (spec section 4.3
gate-then-act; section 6 row listFollowers fails NotFound). -/
def guardedGetUserFollowers (s : Store) (id : String) :
    Except Err (List UserDoc) :=
  match checkUserExist s id with
  | .error e => .error e
  | .ok _ => .ok (getUserFollowers s id)

/-- A store with two distinct accounts sharing name and password, reached
from the empty store through addUser twice and a rename via updateUserById. -/
def dupStore : Store :=
  (updateUserById
    ((addUser ((addUser ⟨[]⟩ "1" "alice" "pw").2) "2" "bob" "pw").2)
    "2" ⟨some "alice", none⟩).2

/-- Counterexample to claim C5 as stated: in a reachable store two accounts
match the credentials alice/pw, yet login succeeds (with the first match)
instead of failing with InvalidCredentials on the ambiguous match. -/
theorem login_ambiguous_match_succeeds :
    2 ≤ (dupStore.users.filter
        (fun u => decide (u.name = "alice" ∧ u.password = "pw"))).length ∧
    login dupStore "alice" "pw" =
      .ok { payload := [("name", "alice"), ("_id", "1")], expiresIn := "1d" } := by
  decide

/-- Claim C5 as amended: login fails with InvalidCredentials exactly when no
account matches both fields; when the store's first match is me, it returns
a token whose claims are exactly the name and _id of me with the fixed
one-day validity, and the payload keys carry no password entry. -/
theorem login_spec (s : Store) (name password : String) :
    ((∀ u ∈ s.users, ¬(u.name = name ∧ u.password = password)) →
        login s name password = .error .invalidCredentials) ∧
    (∀ me, s.users.find? (fun u => decide (u.name = name ∧ u.password = password))
          = some me →
        login s name password =
          .ok { payload := [("name", me.name), ("_id", me.id)], expiresIn := "1d" } ∧
        ([("name", me.name), ("_id", me.id)] : List (String × String)).map Prod.fst
          = ["name", "_id"]) := by
  constructor
  · intro h
    have hnone : s.users.find?
        (fun u => decide (u.name = name ∧ u.password = password)) = none := by
      rw [List.find?_eq_none]
      intro x hx
      simp only [decide_eq_true_eq]
      exact h x hx
    simp only [login, hnone]
  · intro me hme
    exact ⟨by simp only [login, hme], by simp⟩

/-- Witness for the amended claim C5: no account of the sample store matches
nobody/x, and login fails with InvalidCredentials there. -/
theorem login_spec_witness :
    (∀ u ∈ sampleStore.users, ¬(u.name = "nobody" ∧ u.password = "x")) ∧
    login sampleStore "nobody" "x" = Except.error Err.invalidCredentials :=
  ⟨by decide, (login_spec sampleStore "nobody" "x").1 (by decide)⟩

/-- Counterexample to claim C6 as stated: starting from a store with
pairwise-distinct names, updateUserById renames bob to alice with a success
result, leaving two records named alice — updateUser can break name
uniqueness. -/
theorem updateUser_breaks_name_uniqueness :
    ((sampleStore.users.map (fun u => u.name)).Nodup) ∧
    (updateUserById sampleStore "2" ⟨some "alice", none⟩).1 = .ok (some uBob) ∧
    ((updateUserById sampleStore "2" ⟨some "alice", none⟩).2.users.map
        (fun u => u.name)) = ["alice", "alice"] := by
  decide

/-- Claim C6 as amended: addUser with an already-taken name fails with
Conflict and leaves the store unchanged, and addUser preserves name
uniqueness; updateUserById, however, performs no uniqueness check and can
produce two records with the same name. -/
theorem addUser_preserves_name_uniqueness (s : Store) (newId name password : String) :
    ((∃ u ∈ s.users, u.name = name) →
        addUser s newId name password = (.error .conflict, s)) ∧
    (∀ r s', addUser s newId name password = (r, s') →
        (s.users.map (fun u => u.name)).Nodup →
        (s'.users.map (fun u => u.name)).Nodup) := by
  constructor
  · rintro ⟨u, hu, hname⟩
    cases hfind : s.users.find? (fun x => decide (x.name = name)) with
    | none =>
      rw [List.find?_eq_none] at hfind
      exact absurd (by simp [hname]) (hfind u hu)
    | some w => simp [addUser, hfind]
  · intro r s' heq hnd
    cases hfind : s.users.find? (fun x => decide (x.name = name)) with
    | some w =>
      simp only [addUser, hfind, Prod.mk.injEq] at heq
      rw [← heq.2]
      exact hnd
    | none =>
      simp only [addUser, hfind, Prod.mk.injEq] at heq
      rw [← heq.2]
      have hnot : name ∉ s.users.map (fun u => u.name) := by
        rw [List.find?_eq_none] at hfind
        simp only [List.mem_map]
        rintro ⟨u, hu, hname⟩
        have hne : ¬ u.name = name := by simpa using hfind u hu
        exact hne hname
      simp only [List.map_append, List.map_cons, List.map_nil]
      rw [← List.concat_eq_append]
      exact List.Nodup.concat hnot hnd

/-- Witness for the amended claim C6: alice is taken in the sample store, so
a second create with that name fails with Conflict and changes nothing. -/
theorem addUser_preserves_name_uniqueness_witness :
    (∃ u ∈ sampleStore.users, u.name = "alice") ∧
    addUser sampleStore "9" "alice" "pw2" = (Except.error Err.conflict, sampleStore) :=
  ⟨by decide, (addUser_preserves_name_uniqueness sampleStore "9" "alice" "pw2").1 (by decide)⟩

/-- Claim C7: when the acting identity from the session differs from the
path-specified owner id, the guarded self-scoped mutations fail with
Forbidden and return the store untouched; the guard itself is a pure
equality comparison of the two ids. -/
theorem owner_gate_forbidden (s : Store) (actingId pathId : String) (p : Patch)
    (hne : pathId ≠ actingId) :
    guardedUpdateUserById s actingId pathId p = (.error .forbidden, s) ∧
    guardedDeleteUserById s actingId pathId = (.error .forbidden, s) ∧
    (∀ a b : String, checkOwner a b = .ok () ↔ a = b) := by
  refine ⟨?_, ?_, ?_⟩
  · simp [guardedUpdateUserById, checkOwner, hne]
  · simp [guardedDeleteUserById, checkOwner, hne]
  · intro a b
    by_cases h : a = b <;> simp [checkOwner, h]

/-- Witness for claim C7: acting user 1 may not mutate owner 2. -/
theorem owner_gate_forbidden_witness :
    ("2" : String) ≠ "1" ∧
    (guardedUpdateUserById sampleStore "1" "2" ⟨none, none⟩
        = (.error .forbidden, sampleStore) ∧
     guardedDeleteUserById sampleStore "1" "2" = (.error .forbidden, sampleStore) ∧
     (∀ a b : String, checkOwner a b = .ok () ↔ a = b)) :=
  ⟨by decide, owner_gate_forbidden sampleStore "1" "2" ⟨none, none⟩ (by decide)⟩

/-- Claim C8: the followers listing fails with NotFound when the id resolves
to no user, and otherwise returns exactly the users whose following set
contains the target id. -/
theorem followers_query (s : Store) (id : String) :
    ((∀ u ∈ s.users, u.id ≠ id) → guardedGetUserFollowers s id = .error .notFound) ∧
    (∀ me, findUserById s id = some me →
        ∃ l, guardedGetUserFollowers s id = .ok l ∧
          ∀ u, u ∈ l ↔ u ∈ s.users ∧ id ∈ u.following) := by
  constructor
  · intro h
    simp [guardedGetUserFollowers, checkUserExist, findUserById_eq_none s id h]
  · intro me hme
    refine ⟨getUserFollowers s id,
      by simp [guardedGetUserFollowers, checkUserExist, hme], ?_⟩
    intro u
    simp [getUserFollowers, List.mem_filter]

/-- Witness for claim C8: user 2 exists in the sample store, and its
follower list is characterized by following-membership. -/
theorem followers_query_witness :
    (findUserById sampleStore "2" = some uBob) ∧
    (∃ l, guardedGetUserFollowers sampleStore "2" = .ok l ∧
      ∀ u, u ∈ l ↔ u ∈ sampleStore.users ∧ "2" ∈ u.following) :=
  ⟨by decide, (followers_query sampleStore "2").2 uBob (by decide)⟩

/-- Claim C10: for an id absent from the store, updateUserById reports
success with a null prior record and an unchanged store, while
deleteUserById on the same id fails with NotFound. -/
theorem update_no_existence_check (s : Store) (id : String) (p : Patch)
    (habs : ∀ u ∈ s.users, u.id ≠ id) :
    updateUserById s id p = (.ok none, s) ∧
    deleteUserById s id = (.error .notFound, s) := by
  have h : findUserById s id = none := findUserById_eq_none s id habs
  constructor <;> simp [updateUserById, deleteUserById, h]

/-- Witness for claim C10: id 9 is absent from the sample store. -/
theorem update_no_existence_check_witness :
    (∀ u ∈ sampleStore.users, u.id ≠ "9") ∧
    (updateUserById sampleStore "9" ⟨none, none⟩ = (.ok none, sampleStore) ∧
     deleteUserById sampleStore "9" = (.error .notFound, sampleStore)) :=
  ⟨by decide, update_no_existence_check sampleStore "9" ⟨none, none⟩ (by decide)⟩

end ZhihuApi
